import Mathlib

set_option maxRecDepth 2048

/-!
Verification of the Idempotency-Gateway deduplication core.

The Go sources are embedded shallowly:
* `models/models.go`   → `KeyState`, `CachedEntry`
* `middleware/idempotency.go` → `hashBody` (SHA-256 hex digest) and `Idempotency`
* the in-memory store  → `MemoryStore` with `Get`, `Set`, `WaitForComplete`,
  `sweep` and the hard-coded sweeper ticker interval
* `config/config.go`   → `Config`, `Config.Default`

Bytes are modelled as `Nat` (values < 256 in practice), byte strings as
`List Nat`, Go's `map[string]*CachedEntry` as an association list with
replace-on-insert semantics, and `time.Time`/`Unix` seconds as `Int`.
-/

/-- From `models/models.go`: `KeyState` with the two constants
`StateProcessing = "PROCESSING"` and `StateComplete = "COMPLETE"`. -/
inductive KeyState where
  | StateProcessing
  | StateComplete
deriving DecidableEq, Repr

/-- From `models/models.go`: one cached entry per idempotency key.
`StatusCode` and `ResponseBody` carry Go zero values (`0`, empty) until the
entry is written with `StateComplete`. -/
structure CachedEntry where
  State : KeyState
  BodyHash : String
  StatusCode : Nat
  ResponseBody : List Nat
  CreatedAt : Int
deriving DecidableEq, Repr

/-! ## SHA-256, as used by `hashBody` in `middleware/idempotency.go`

`hashBody` is `hex.EncodeToString(sha256.Sum256(body))`.  The hash is
implemented here over `Nat` with explicit reduction mod `2^32`. -/

/-- `2^32`, the modulus of all 32-bit words in SHA-256. -/
def m32 : Nat := 4294967296

/-- Right rotation of a 32-bit word by `n` places. -/
def rotr (n x : Nat) : Nat := ((x >>> n) ||| (x <<< (32 - n))) % m32

/-- SHA-256 `Ch(x,y,z) = (x ∧ y) ⊕ (¬x ∧ z)` on 32-bit words. -/
def ch (x y z : Nat) : Nat := (x &&& y) ^^^ ((x ^^^ (m32 - 1)) &&& z)

/-- SHA-256 `Maj(x,y,z)`. -/
def maj (x y z : Nat) : Nat := (x &&& y) ^^^ (x &&& z) ^^^ (y &&& z)

/-- SHA-256 big sigma-0. -/
def bigSigma0 (x : Nat) : Nat := rotr 2 x ^^^ rotr 13 x ^^^ rotr 22 x

/-- SHA-256 big sigma-1. -/
def bigSigma1 (x : Nat) : Nat := rotr 6 x ^^^ rotr 11 x ^^^ rotr 25 x

/-- SHA-256 small sigma-0. -/
def smallSigma0 (x : Nat) : Nat := rotr 7 x ^^^ rotr 18 x ^^^ (x >>> 3)

/-- SHA-256 small sigma-1. -/
def smallSigma1 (x : Nat) : Nat := rotr 17 x ^^^ rotr 19 x ^^^ (x >>> 10)

/-- The 64 SHA-256 round constants of FIPS 180-4 (the first 32 fractional
bits of the cube roots of the first 64 primes), written in decimal. -/
def sha256K : List Nat :=
  [1116352408, 1899447441, 3049323471, 3921009573, 961987163,
   1508970993, 2453635748, 2870763221, 3624381080, 310598401,
   607225278, 1426881987, 1925078388, 2162078206, 2614888103,
   3248222580, 3835390401, 4022224774, 264347078, 604807628,
   770255983, 1249150122, 1555081692, 1996064986, 2554220882,
   2821834349, 2952996808, 3210313671, 3336571891, 3584528711,
   113926993, 338241895, 666307205, 773529912, 1294757372,
   1396182291, 1695183700, 1986661051, 2177026350, 2456956037,
   2730485921, 2820302411, 3259730800, 3345764771, 3516065817,
   3600352804, 4094571909, 275423344, 430227734, 506948616,
   659060556, 883997877, 958139571, 1322822218, 1537002063,
   1747873779, 1955562222, 2024104815, 2227730452, 2361852424,
   2428436474, 2756734187, 3204031479, 3329325298]

/-- The eight SHA-256 chaining words. -/
structure Digest where
  h0 : Nat
  h1 : Nat
  h2 : Nat
  h3 : Nat
  h4 : Nat
  h5 : Nat
  h6 : Nat
  h7 : Nat
deriving DecidableEq, Repr

/-- SHA-256 initial hash value of FIPS 180-4 (the fractional square-root
bits of the first eight primes), written in decimal. -/
def sha256Init : Digest :=
  ⟨1779033703, 3144134277, 1013904242, 2773480762,
   1359893119, 2600822924, 528734635, 1541459225⟩

/-- Append the next word of the SHA-256 message schedule. -/
def scheduleStep (ws : List Nat) : List Nat :=
  let i := ws.length
  ws ++ [(ws.getD (i - 16) 0 + smallSigma0 (ws.getD (i - 15) 0) +
          ws.getD (i - 7) 0 + smallSigma1 (ws.getD (i - 2) 0)) % m32]

/-- Iterate `scheduleStep` `n` times (48 times extends 16 words to 64). -/
def extendSchedule : Nat → List Nat → List Nat
  | 0, ws => ws
  | n + 1, ws => extendSchedule n (scheduleStep ws)

/-- One SHA-256 compression round. -/
def sha256Round (st : Digest) (ki wi : Nat) : Digest :=
  let t1 := (st.h7 + bigSigma1 st.h4 + ch st.h4 st.h5 st.h6 + ki + wi) % m32
  let t2 := (bigSigma0 st.h0 + maj st.h0 st.h1 st.h2) % m32
  ⟨(t1 + t2) % m32, st.h0, st.h1, st.h2, (st.h3 + t1) % m32, st.h4, st.h5, st.h6⟩

/-- Compress one 16-word block into the chaining state. -/
def compressBlock (st : Digest) (block : List Nat) : Digest :=
  let ws := extendSchedule 48 block
  let f := (sha256K.zip ws).foldl (fun d kw => sha256Round d kw.1 kw.2) st
  ⟨(st.h0 + f.h0) % m32, (st.h1 + f.h1) % m32, (st.h2 + f.h2) % m32,
   (st.h3 + f.h3) % m32, (st.h4 + f.h4) % m32, (st.h5 + f.h5) % m32,
   (st.h6 + f.h6) % m32, (st.h7 + f.h7) % m32⟩

/-- The 8-byte big-endian encoding of `n` (used for the length field). -/
def be64 (n : Nat) : List Nat :=
  [(n >>> 56) % 256, (n >>> 48) % 256, (n >>> 40) % 256, (n >>> 32) % 256,
   (n >>> 24) % 256, (n >>> 16) % 256, (n >>> 8) % 256, n % 256]

/-- SHA-256 padding: `0x80`, zeros to 56 mod 64, then the bit length. -/
def padMessage (msg : List Nat) : List Nat :=
  let L := msg.length
  let zeros := (119 - L % 64) % 64
  msg ++ [0x80] ++ List.replicate zeros 0 ++ be64 (8 * L)

/-- Group bytes into big-endian 32-bit words. -/
def toWords : List Nat → List Nat
  | a :: b :: c :: d :: rest => (((a * 256 + b) * 256 + c) * 256 + d) :: toWords rest
  | _ => []

/-- Split a padded message into `n` chunks of 64 bytes. -/
def chunks64 : Nat → List Nat → List (List Nat)
  | 0, _ => []
  | n + 1, l => l.take 64 :: chunks64 n (l.drop 64)

/-- Lower-case hex digit for a nibble. -/
def hexDigit (n : Nat) : Char :=
  if n < 10 then Char.ofNat (48 + n) else Char.ofNat (87 + n)

/-- Lower-case hex spelling of one 32-bit word (8 digits). -/
def wordHex (w : Nat) : List Char :=
  [hexDigit ((w >>> 28) % 16), hexDigit ((w >>> 24) % 16),
   hexDigit ((w >>> 20) % 16), hexDigit ((w >>> 16) % 16),
   hexDigit ((w >>> 12) % 16), hexDigit ((w >>> 8) % 16),
   hexDigit ((w >>> 4) % 16), hexDigit (w % 16)]

/-- From `middleware/idempotency.go`: `hashBody` returns the lower-case hex
encoding of the SHA-256 digest of the raw body bytes. -/
def hashBody (body : List Nat) : String :=
  let padded := padMessage body
  let d := (chunks64 (padded.length / 64) padded).foldl
             (fun st blk => compressBlock st (toWords blk)) sha256Init
  String.mk (wordHex d.h0 ++ wordHex d.h1 ++ wordHex d.h2 ++ wordHex d.h3 ++
             wordHex d.h4 ++ wordHex d.h5 ++ wordHex d.h6 ++ wordHex d.h7)

/-! ## The in-memory store

`MemoryStore` holds `data map[string]*CachedEntry` and a TTL.  The map is
modelled as an association list whose `Set` replaces in place, and the TTL
(`time.Duration`) by its whole number of seconds, which is exactly what
`sweep` compares against (`int64(ms.ttl.Seconds())`). -/

/-- Read of Go's `ms.data[key]` (`nil` for a missing key becomes `none`). -/
def mapGet : List (String × CachedEntry) → String → Option CachedEntry
  | [], _ => none
  | (k, e) :: rest, key => if k = key then some e else mapGet rest key

/-- Write of Go's `ms.data[key] = entry`: replace if present, else append. -/
def mapSet : List (String × CachedEntry) → String → CachedEntry →
    List (String × CachedEntry)
  | [], key, entry => [(key, entry)]
  | (k, e) :: rest, key, entry =>
      if k = key then (key, entry) :: rest else (k, e) :: mapSet rest key entry

/-- The store state: the key map plus the configured TTL in seconds. -/
structure MemoryStore where
  data : List (String × CachedEntry)
  ttlSec : Int
deriving DecidableEq, Repr

/-- `NewMemoryStore(ttl)`: empty map, given TTL. -/
def NewMemoryStore (ttlSec : Int) : MemoryStore := ⟨[], ttlSec⟩

/-- `MemoryStore.Get`: non-blocking snapshot read under `RLock`. -/
def MemoryStore.Get (ms : MemoryStore) (key : String) : Option CachedEntry :=
  mapGet ms.data key

/-- `MemoryStore.Set`: unconditional upsert under the write lock (the
`Broadcast` to waiters is modelled by the wake-up snapshots fed to
`WaitForComplete`). -/
def MemoryStore.Set (ms : MemoryStore) (key : String) (entry : CachedEntry) :
    MemoryStore :=
  { ms with data := mapSet ms.data key entry }

/-- `MemoryStore.WaitForComplete`, modelled over the sequence of store
snapshots the waiting goroutine observes: the head is the state at the
initial check, each later element the state observed after one
`cond.Wait()` wake-up (spurious or not).  The loop returns `some entry` as
soon as a snapshot has the key absent (`entry = none`) or `StateComplete`;
`none` means the goroutine is still parked after the whole observed trace. -/
def MemoryStore.WaitForComplete (key : String) :
    List MemoryStore → Option (Option CachedEntry)
  | [] => none
  | ms :: rest =>
      match ms.Get key with
      | none => some none
      | some entry =>
          if entry.State = KeyState.StateComplete then some (some entry)
          else MemoryStore.WaitForComplete key rest

/-- The recursion inside `sweep`: walk the map, delete every entry with
`now - entry.CreatedAt > ttlSec`, and count the deletions. -/
def sweepAux (now ttlSec : Int) :
    List (String × CachedEntry) → List (String × CachedEntry) × Nat
  | [] => ([], 0)
  | (k, e) :: rest =>
      let r := sweepAux now ttlSec rest
      if now - e.CreatedAt > ttlSec then (r.1, r.2 + 1) else ((k, e) :: r.1, r.2)

/-- `MemoryStore.sweep`: the store after one sweep at wall-clock `now`.
The Go method mutates the receiver and returns nothing. -/
def MemoryStore.sweep (ms : MemoryStore) (now : Int) : MemoryStore :=
  { ms with data := (sweepAux now ms.ttlSec ms.data).1 }

/-- The local `evicted` counter accumulated inside `sweep`. -/
def MemoryStore.sweepEvicted (ms : MemoryStore) (now : Int) : Nat :=
  (sweepAux now ms.ttlSec ms.data).2

/-- The log lines `sweep` emits: one `log.Printf` when `evicted > 0`,
nothing otherwise.  This is the only channel on which the count leaves the
function. -/
def MemoryStore.sweepLog (ms : MemoryStore) (now : Int) : List String :=
  if 0 < ms.sweepEvicted now then
    ["sweeper evicted " ++ toString (ms.sweepEvicted now) ++
     " expired idempotency keys"]
  else []

/-- `MemoryStore.StartSweeper` launches a goroutine around
`time.NewTicker(10 * time.Minute)`: the tick period, in seconds, is a
hard-coded constant that depends on nothing — in particular not on any
`Config.SweepInterval`. -/
def MemoryStore.StartSweeperIntervalSec (_ms : MemoryStore) : Int := 600

/-! ## Configuration (`config/config.go`), durations in seconds. -/

/-- The tuneable values of the gateway. -/
structure Config where
  Port : String
  ProcessingDelaySec : Int
  KeyTTLSec : Int
  SweepIntervalSec : Int
deriving DecidableEq, Repr

/-- `config.Default()`: port 8080, 2 s delay, 24 h TTL, 10 min sweep. -/
def Config.Default : Config :=
  { Port := ":8080", ProcessingDelaySec := 2, KeyTTLSec := 86400,
    SweepIntervalSec := 600 }

/-! ## The idempotency middleware (`middleware/idempotency.go`)

The handler's four exits are abstracted into the spec's `Outcome`:
a fresh execution writing the recorded status/body (`Executed`), a
`replayResponse` of a cached entry (`Replayed`, sent with
`X-Cache-Hit: true`), the 409 JSON error (`Conflict`), and the 400 for a
missing `Idempotency-Key` header (`InvalidKey`). -/

/-- The observable outcome of one request through the middleware. -/
inductive Outcome where
  | Executed (code : Nat) (body : List Nat)
  | Replayed (code : Nat) (body : List Nat)
  | Conflict
  | InvalidKey
deriving DecidableEq, Repr

/-- `true` exactly on the fresh-execution outcome. -/
def Outcome.isExecuted : Outcome → Bool
  | Outcome.Executed _ _ => true
  | _ => false

/-- One pass of the `Idempotency` middleware handler.

* `ms` is the store as this request's `s.Get` observes it, `key` the
  `Idempotency-Key` header (empty when absent), `rawBody` the request body.
* `completed` is the value `s.WaitForComplete(key)` hands back in the
  in-flight branch — it stands for the store's state at the moment the
  waiter is released and is consulted on no other path, exactly as in the
  source.
* `next` is the downstream handler; applying it yields the status code and
  body the `responseRecorder` captures.
* `now` and `now2` are the two `time.Now().Unix()` readings.

The result is the outcome, the store as left by this handler's own `Set`
calls, and whether `next` was invoked. -/
def Idempotency (ms : MemoryStore) (key : String) (rawBody : List Nat)
    (completed : Option CachedEntry) (next : List Nat → Nat × List Nat)
    (now now2 : Int) : Outcome × MemoryStore × Bool :=
  if key = "" then (Outcome.InvalidKey, ms, false)
  else
    let bodyHash := hashBody rawBody
    match ms.Get key with
    | some existing =>
        -- the block shared by the COMPLETE case and the nil-return of the
        -- wait: hash check against the entry read before any wait
        let fallthru :=
          if existing.BodyHash ≠ bodyHash then (Outcome.Conflict, ms, false)
          else (Outcome.Replayed existing.StatusCode existing.ResponseBody,
                ms, false)
        if existing.State = KeyState.StateProcessing then
          match completed with
          | some c => (Outcome.Replayed c.StatusCode c.ResponseBody, ms, false)
          | none => fallthru
        else fallthru
    | none =>
        let ms1 := ms.Set key
          ⟨KeyState.StateProcessing, bodyHash, 0, [], now⟩
        let r := next rawBody
        let ms2 := ms1.Set key
          ⟨KeyState.StateComplete, bodyHash, r.1, r.2, now2⟩
        (Outcome.Executed r.1 r.2, ms2, true)

/-! ## Interleaving model of concurrent requests

The middleware's store accesses are individually atomic (each `Get`, `Set`
and wait-loop check holds the store lock) but nothing holds the lock
across the gap between the first `s.Get` and the `s.Set` that marks
`PROCESSING`.  The model below makes each of those atomic accesses one
step of a thread, so any interleaving of steps is a possible schedule. -/

/-- The program counter of one request between its atomic store accesses. -/
inductive PC where
  /-- about to run the header check and the initial `s.Get` -/
  | start
  /-- `s.Get` returned nil; about to `Set` the PROCESSING entry -/
  | sawAbsent
  /-- PROCESSING entry written; about to invoke the downstream handler -/
  | readyToExec
  /-- downstream returned this status/body; about to `Set` COMPLETE -/
  | finishedExec (code : Nat) (body : List Nat)
  /-- parked in `WaitForComplete`, holding the pre-wait snapshot `existing` -/
  | waiting (snapshot : CachedEntry)
  /-- the handler returned with this outcome -/
  | done (o : Outcome)
deriving DecidableEq, Repr

/-- One request thread: its header key, raw body and program counter. -/
structure ReqThread where
  key : String
  rawBody : List Nat
  pc : PC
deriving DecidableEq, Repr

/-- The whole system: the shared store, the request threads, and the
number of downstream-handler invocations so far. -/
structure Sys where
  ms : MemoryStore
  threads : List ReqThread
  execCount : Nat
deriving DecidableEq, Repr

/-- Advance one thread by one atomic action of the middleware, returning
the new store, the number of downstream invocations this step performed,
and the new program counter.  Each branch transcribes the corresponding
lines of `Idempotency` and of the `WaitForComplete` loop. -/
def stepPC (next : List Nat → Nat × List Nat) (now : Int) (ms : MemoryStore)
    (th : ReqThread) : MemoryStore × Nat × PC :=
  match th.pc with
  | PC.start =>
      if th.key = "" then (ms, 0, PC.done Outcome.InvalidKey)
      else
        match ms.Get th.key with
        | none => (ms, 0, PC.sawAbsent)
        | some e =>
            if e.State = KeyState.StateProcessing then (ms, 0, PC.waiting e)
            else if e.BodyHash ≠ hashBody th.rawBody then
              (ms, 0, PC.done Outcome.Conflict)
            else
              (ms, 0, PC.done (Outcome.Replayed e.StatusCode e.ResponseBody))
  | PC.sawAbsent =>
      (ms.Set th.key ⟨KeyState.StateProcessing, hashBody th.rawBody, 0, [], now⟩,
       0, PC.readyToExec)
  | PC.readyToExec =>
      let r := next th.rawBody
      (ms, 1, PC.finishedExec r.1 r.2)
  | PC.finishedExec code body =>
      (ms.Set th.key
         ⟨KeyState.StateComplete, hashBody th.rawBody, code, body, now⟩,
       0, PC.done (Outcome.Executed code body))
  | PC.waiting snapshot =>
      match ms.Get th.key with
      | none =>
          -- WaitForComplete returned nil: fall through to the hash check
          -- against the stale pre-wait snapshot
          if snapshot.BodyHash ≠ hashBody th.rawBody then
            (ms, 0, PC.done Outcome.Conflict)
          else
            (ms, 0,
             PC.done (Outcome.Replayed snapshot.StatusCode snapshot.ResponseBody))
      | some e =>
          if e.State = KeyState.StateComplete then
            (ms, 0, PC.done (Outcome.Replayed e.StatusCode e.ResponseBody))
          else (ms, 0, PC.waiting snapshot)
  | PC.done o => (ms, 0, PC.done o)

/-- Run one step of thread `i` (no-op when `i` is out of range). -/
def step (next : List Nat → Nat × List Nat) (now : Int) (sys : Sys) (i : Nat) :
    Sys :=
  match sys.threads.get? i with
  | none => sys
  | some th =>
      let r := stepPC next now sys.ms th
      { ms := r.1,
        threads := sys.threads.set i { th with pc := r.2.2 },
        execCount := sys.execCount + r.2.1 }

/-- Run a whole schedule, a list of thread indices, from a system state. -/
def run (next : List Nat → Nat × List Nat) (now : Int) (sys : Sys)
    (sched : List Nat) : Sys :=
  sched.foldl (step next now) sys

/-! ## Helper lemmas about the association-list map -/

theorem mapGet_mapSet_self (l : List (String × CachedEntry)) (k : String)
    (e : CachedEntry) : mapGet (mapSet l k e) k = some e := by
  induction l with
  | nil => simp [mapSet, mapGet]
  | cons hd tl ih =>
      by_cases h : hd.1 = k
      · simp [mapSet, h, mapGet]
      · obtain ⟨k0, e0⟩ := hd
        simp only at h
        simp [mapSet, h, mapGet, ih]

theorem mapGet_mapSet_ne (l : List (String × CachedEntry)) (k k' : String)
    (e : CachedEntry) (h : k' ≠ k) : mapGet (mapSet l k e) k' = mapGet l k' := by
  induction l with
  | nil => simp [mapSet, mapGet, Ne.symm h]
  | cons hd tl ih =>
      obtain ⟨k0, e0⟩ := hd
      by_cases h0 : k0 = k
      · subst h0
        simp [mapSet, mapGet, Ne.symm h]
      · simp [mapSet, h0, mapGet, ih]

/-! ## The claims -/

/-- C6: a request with an empty `Idempotency-Key` is rejected as
`InvalidKey` before anything else happens: the outcome is `InvalidKey` for
every store, the store comes back exactly as it was (no entry is created
for any key), and the downstream handler is not invoked.  In the source the
header check precedes the first `s.Get`, so no store access occurs. -/
theorem C6_empty_key_rejected_without_store_access (ms : MemoryStore)
    (rawBody : List Nat) (completed : Option CachedEntry)
    (next : List Nat → Nat × List Nat) (now now2 : Int) :
    Idempotency ms "" rawBody completed next now now2 =
      (Outcome.InvalidKey, ms, false) := rfl

/-- C8: the background sweeper's tick interval is NOT configurable — it is
the hard-coded constant 600 seconds (`10 * time.Minute`) for every store,
so a configuration whose `SweepInterval` differs from 10 minutes (here one
minute) is ignored, while `Config.Default` happens to coincide with the
hard-coded value. -/
theorem C8_sweeper_interval_hardcoded :
    (∀ ms : MemoryStore, ms.StartSweeperIntervalSec = 600) ∧
    Config.Default.SweepIntervalSec = 600 ∧
    ({ Config.Default with SweepIntervalSec := 60 } : Config).SweepIntervalSec
      = 60 ∧
    (NewMemoryStore 86400).StartSweeperIntervalSec ≠
      ({ Config.Default with SweepIntervalSec := 60 } : Config).SweepIntervalSec
    := ⟨fun _ => rfl, rfl, rfl, by decide⟩

/-- C9: `WaitForComplete` (1) only ever returns an absent entry or one in
`StateComplete`, never an `IN_FLIGHT` one; (2) returns immediately, with
the entry read at the first check, whenever that entry is already absent
or complete; (3) on any wake-up that still observes `StateProcessing`
(spurious or not) it re-enters the loop and keeps waiting. -/
theorem C9_wait_until_resolved (key : String) :
    (∀ (trace : List MemoryStore) (r : Option CachedEntry),
       MemoryStore.WaitForComplete key trace = some r →
       r = none ∨ ∃ e, r = some e ∧ e.State = KeyState.StateComplete) ∧
    (∀ (ms : MemoryStore) (rest : List MemoryStore),
       (ms.Get key = none ∨
        ∃ e, ms.Get key = some e ∧ e.State = KeyState.StateComplete) →
       MemoryStore.WaitForComplete key (ms :: rest) = some (ms.Get key)) ∧
    (∀ (ms : MemoryStore) (rest : List MemoryStore) (e : CachedEntry),
       ms.Get key = some e → e.State = KeyState.StateProcessing →
       MemoryStore.WaitForComplete key (ms :: rest) =
         MemoryStore.WaitForComplete key rest) := by
  refine ⟨?_, ?_, ?_⟩
  · intro trace
    induction trace with
    | nil => intro r h; simp [MemoryStore.WaitForComplete] at h
    | cons ms rest ih =>
        intro r h
        simp only [MemoryStore.WaitForComplete] at h
        cases hg : ms.Get key with
        | none =>
            rw [hg] at h
            simp at h
            exact Or.inl h.symm
        | some e =>
            rw [hg] at h
            simp only at h
            by_cases hc : e.State = KeyState.StateComplete
            · rw [if_pos hc] at h
              simp at h
              exact Or.inr ⟨e, h.symm, hc⟩
            · rw [if_neg hc] at h
              exact ih r h
  · intro ms rest h
    cases h with
    | inl h => simp [MemoryStore.WaitForComplete, h]
    | inr h =>
        obtain ⟨e, hg, hc⟩ := h
        simp [MemoryStore.WaitForComplete, hg, hc]
  · intro ms rest e hg hp
    have : ¬ e.State = KeyState.StateComplete := by
      rw [hp]; intro h; cases h
    simp [MemoryStore.WaitForComplete, hg, this]

/-- Witness for C9: on a trace whose first snapshot has no entry for
`"k"`, the wait returns immediately with `none`. -/
theorem C9_witness :
    MemoryStore.WaitForComplete "k" [NewMemoryStore 86400] = some none :=
  (C9_wait_until_resolved "k").2.1 (NewMemoryStore 86400) [] (Or.inl rfl)

/-- C2 fails on the code: the first `s.Get` and the `s.Set` that marks
`PROCESSING` are separate critical sections, so two concurrent requests
with the same key `"k2"` and identical payload `[5]` can both observe the
key as absent before either writes — the schedule `[0,1,0,0,1,1]` below —
after which both invoke the downstream handler: the invocation count is 2,
not the "exactly once" the claim (and the repository's own race test)
requires. -/
theorem C2_double_execution_trace :
    (run (fun _ => (201, [1])) 0
      { ms := NewMemoryStore 86400,
        threads := [⟨"k2", [5], PC.start⟩, ⟨"k2", [5], PC.start⟩],
        execCount := 0 }
      [0, 1, 0, 0, 1, 1]).execCount = 2 := by decide

/-- C1 fails on the code: a duplicate that finds the key `IN_FLIGHT` and
waits is replayed the original's result WITHOUT any fingerprint check.
Concretely: the stored in-flight entry and the resolved entry carry the
fingerprint of payload `[1]`, the waiting request carries payload `[2]`
(a different fingerprint), yet the middleware returns
`Replayed 201 [7]` — the original's cached result — and not `Conflict`. -/
theorem C1_counterexample :
    hashBody [2] ≠ hashBody [1] ∧
    (Idempotency
        ⟨[("k", ⟨KeyState.StateProcessing, hashBody [1], 0, [], 0⟩)], 86400⟩
        "k" [2] (some ⟨KeyState.StateComplete, hashBody [1], 201, [7], 1⟩)
        (fun _ => (500, [9])) 5 6).1 ≠ Outcome.Conflict ∧
    (Idempotency
        ⟨[("k", ⟨KeyState.StateProcessing, hashBody [1], 0, [], 0⟩)], 86400⟩
        "k" [2] (some ⟨KeyState.StateComplete, hashBody [1], 201, [7], 1⟩)
        (fun _ => (500, [9])) 5 6).1 = Outcome.Replayed 201 [7] := by decide

/-- C1 amended: when the key is `IN_FLIGHT` and the wait resolves to a
present entry, the middleware replays that entry's stored result as-is,
without comparing fingerprints (so even a mismatched payload gets the
replay rather than `Conflict`); the store is left untouched and the
downstream operation is not executed.  (When the wait instead finds the
entry gone, the fingerprint is compared against the pre-wait snapshot —
that branch is the subject of C10.) -/
theorem C1_amended_inflight_replays_without_fingerprint_check
    (ms : MemoryStore) (key : String) (rawBody : List Nat) (c : CachedEntry)
    (next : List Nat → Nat × List Nat) (now now2 : Int)
    (existing : CachedEntry) (hkey : key ≠ "")
    (hget : ms.Get key = some existing)
    (hproc : existing.State = KeyState.StateProcessing) :
    Idempotency ms key rawBody (some c) next now now2 =
      (Outcome.Replayed c.StatusCode c.ResponseBody, ms, false) := by
  simp [Idempotency, hkey, hget, hproc]

/-- Witness for the amended C1 at the counterexample's inputs. -/
theorem C1_witness :
    Idempotency
        ⟨[("k", ⟨KeyState.StateProcessing, hashBody [1], 0, [], 0⟩)], 86400⟩
        "k" [2] (some ⟨KeyState.StateComplete, hashBody [1], 201, [7], 1⟩)
        (fun _ => (500, [9])) 5 6 =
      (Outcome.Replayed 201 [7],
       ⟨[("k", ⟨KeyState.StateProcessing, hashBody [1], 0, [], 0⟩)], 86400⟩,
       false) :=
  C1_amended_inflight_replays_without_fingerprint_check
    ⟨[("k", ⟨KeyState.StateProcessing, hashBody [1], 0, [], 0⟩)], 86400⟩
    "k" [2] ⟨KeyState.StateComplete, hashBody [1], 201, [7], 1⟩
    (fun _ => (500, [9])) 5 6
    ⟨KeyState.StateProcessing, hashBody [1], 0, [], 0⟩
    (by decide) rfl rfl

/-- C10: when the wait returns with the entry gone (`completed = nil`, as
after a sweeper eviction), the middleware does not execute the downstream
operation; it falls through to the fingerprint check against the stale
pre-wait `IN_FLIGHT` snapshot, returning `Conflict` on mismatch and
otherwise replaying that snapshot — whose result fields were never
populated, i.e. status code 0 and an empty body. -/
theorem C10_absent_after_wait_uses_stale_snapshot (ms : MemoryStore)
    (key : String) (rawBody : List Nat) (next : List Nat → Nat × List Nat)
    (now now2 t0 : Int) (bh : String) (hkey : key ≠ "")
    (hget : ms.Get key = some ⟨KeyState.StateProcessing, bh, 0, [], t0⟩) :
    (Idempotency ms key rawBody none next now now2).2.2 = false ∧
    (bh ≠ hashBody rawBody →
      Idempotency ms key rawBody none next now now2 =
        (Outcome.Conflict, ms, false)) ∧
    (bh = hashBody rawBody →
      Idempotency ms key rawBody none next now now2 =
        (Outcome.Replayed 0 [], ms, false)) := by
  refine ⟨?_, ?_, ?_⟩
  · by_cases hb : bh = hashBody rawBody <;>
      simp [Idempotency, hkey, hget, hb]
  · intro hne
    simp [Idempotency, hkey, hget, hne]
  · intro heq
    simp [Idempotency, hkey, hget, heq]

/-- Witness for C10 at concrete inputs: mismatching payload `[2]` gets
`Conflict`; matching payload `[1]` gets the unpopulated replay `(0, [])`. -/
theorem C10_witness :
    (Idempotency
        ⟨[("k", ⟨KeyState.StateProcessing, hashBody [1], 0, [], 0⟩)], 86400⟩
        "k" [2] none (fun _ => (500, [9])) 5 6 =
      (Outcome.Conflict,
       ⟨[("k", ⟨KeyState.StateProcessing, hashBody [1], 0, [], 0⟩)], 86400⟩,
       false)) ∧
    (Idempotency
        ⟨[("k", ⟨KeyState.StateProcessing, hashBody [1], 0, [], 0⟩)], 86400⟩
        "k" [1] none (fun _ => (500, [9])) 5 6 =
      (Outcome.Replayed 0 [],
       ⟨[("k", ⟨KeyState.StateProcessing, hashBody [1], 0, [], 0⟩)], 86400⟩,
       false)) :=
  ⟨(C10_absent_after_wait_uses_stale_snapshot
      ⟨[("k", ⟨KeyState.StateProcessing, hashBody [1], 0, [], 0⟩)], 86400⟩
      "k" [2] (fun _ => (500, [9])) 5 6 0 (hashBody [1])
      (by decide) rfl).2.1 (by decide),
   (C10_absent_after_wait_uses_stale_snapshot
      ⟨[("k", ⟨KeyState.StateProcessing, hashBody [1], 0, [], 0⟩)], 86400⟩
      "k" [1] (fun _ => (500, [9])) 5 6 0 (hashBody [1])
      (by decide) rfl).2.2 rfl⟩

/-- C3: once a key's entry is `COMPLETED` (the state left by a first,
fresh execution), a later call with a byte-identical payload is replayed
the exact status code and body the original execution produced — this
holds for an arbitrary later downstream handler `next'`, so the result is
never recomputed — and a later call whose payload has a different
fingerprint gets `Conflict`; in both cases the stored entry is untouched.
(Distinct payloads yield distinct SHA-256 fingerprints under the spec's
collision-resistance assumption; the last hypothesis states that
fingerprint inequality, which is exactly what the code compares.) -/
theorem C3_completed_replay_verbatim_or_conflict (ms0 : MemoryStore)
    (key : String) (body body' : List Nat) (c0 r r' : Option CachedEntry)
    (next next' next'' : List Nat → Nat × List Nat) (t1 t2 t3 t4 t5 t6 : Int)
    (hkey : key ≠ "") (habsent : ms0.Get key = none) :
    (Idempotency ms0 key body c0 next t1 t2).1 =
      Outcome.Executed (next body).1 (next body).2 ∧
    Idempotency (Idempotency ms0 key body c0 next t1 t2).2.1 key body r
        next' t3 t4 =
      (Outcome.Replayed (next body).1 (next body).2,
       (Idempotency ms0 key body c0 next t1 t2).2.1, false) ∧
    (hashBody body' ≠ hashBody body →
      Idempotency (Idempotency ms0 key body c0 next t1 t2).2.1 key body' r'
          next'' t5 t6 =
        (Outcome.Conflict, (Idempotency ms0 key body c0 next t1 t2).2.1,
         false)) := by
  have hstore : (Idempotency ms0 key body c0 next t1 t2).2.1 =
      (ms0.Set key ⟨KeyState.StateProcessing, hashBody body, 0, [], t1⟩).Set
        key ⟨KeyState.StateComplete, hashBody body, (next body).1,
             (next body).2, t2⟩ := by
    simp [Idempotency, hkey, habsent]
  have hget2 : ((Idempotency ms0 key body c0 next t1 t2).2.1).Get key =
      some ⟨KeyState.StateComplete, hashBody body, (next body).1,
            (next body).2, t2⟩ := by
    rw [hstore]
    exact mapGet_mapSet_self _ _ _
  refine ⟨?_, ?_, ?_⟩
  · simp [Idempotency, hkey, habsent]
  · generalize hm : (Idempotency ms0 key body c0 next t1 t2).2.1 = m at hget2 ⊢
    simp [Idempotency, hkey, hget2]
  · intro hne
    generalize hm : (Idempotency ms0 key body c0 next t1 t2).2.1 = m at hget2 ⊢
    simp [Idempotency, hkey, hget2, Ne.symm hne]

/-- Witness for C3: payload `[1]` executed with result `(201, [7])`; the
byte-identical retry (under a downstream that would return `(999, [0])`)
replays `(201, [7])`; payload `[2]` gets `Conflict`. -/
theorem C3_witness :
    Idempotency
        (Idempotency (NewMemoryStore 86400) "k1" [1] none
          (fun _ => (201, [7])) 0 0).2.1 "k1" [1] none
        (fun _ => (999, [0])) 0 0 =
      (Outcome.Replayed 201 [7],
       (Idempotency (NewMemoryStore 86400) "k1" [1] none
         (fun _ => (201, [7])) 0 0).2.1, false) ∧
    Idempotency
        (Idempotency (NewMemoryStore 86400) "k1" [1] none
          (fun _ => (201, [7])) 0 0).2.1 "k1" [2] none
        (fun _ => (999, [0])) 0 0 =
      (Outcome.Conflict,
       (Idempotency (NewMemoryStore 86400) "k1" [1] none
         (fun _ => (201, [7])) 0 0).2.1, false) :=
  ⟨(C3_completed_replay_verbatim_or_conflict (NewMemoryStore 86400) "k1"
      [1] [2] none none none (fun _ => (201, [7])) (fun _ => (999, [0]))
      (fun _ => (999, [0])) 0 0 0 0 0 0 (by decide) rfl).2.1,
   (C3_completed_replay_verbatim_or_conflict (NewMemoryStore 86400) "k1"
      [1] [2] none none none (fun _ => (201, [7])) (fun _ => (999, [0]))
      (fun _ => (999, [0])) 0 0 0 0 0 0 (by decide) rfl).2.2 (by decide)⟩

/-- Every branch of the middleware that finds an existing entry is
read-only: the store comes back unchanged, the outcome is not a fresh
execution, and the downstream handler is not invoked. -/
theorem Idempotency_present_readonly (ms : MemoryStore) (key : String)
    (rawBody : List Nat) (completed : Option CachedEntry)
    (next : List Nat → Nat × List Nat) (now now2 : Int)
    (existing : CachedEntry) (hkey : ¬ key = "")
    (hget : ms.Get key = some existing) :
    (Idempotency ms key rawBody completed next now now2).2.1 = ms ∧
    (Idempotency ms key rawBody completed next now now2).1.isExecuted
      = false ∧
    (Idempotency ms key rawBody completed next now now2).2.2 = false := by
  by_cases hs : existing.State = KeyState.StateProcessing
  · cases completed with
    | some c => simp [Idempotency, hkey, hget, hs, Outcome.isExecuted]
    | none =>
        by_cases hb : existing.BodyHash = hashBody rawBody <;>
          simp [Idempotency, hkey, hget, hs, hb, Outcome.isExecuted]
  · by_cases hb : existing.BodyHash = hashBody rawBody <;>
      simp [Idempotency, hkey, hget, hs, hb, Outcome.isExecuted]

/-- C4: the store is mutated only by the two `Set` calls of the
first-sight branch — the final store of a fresh execution is exactly the
`PROCESSING` write followed by the `COMPLETED` write — while every
non-executing outcome (`Conflict`, `Replayed`, `InvalidKey`) returns the
store exactly as it was, every entry (fingerprint and result included)
untouched; and even a fresh execution touches no key other than its own. -/
theorem C4_store_mutated_only_on_first_sight (ms : MemoryStore)
    (key : String) (rawBody : List Nat) (completed : Option CachedEntry)
    (next : List Nat → Nat × List Nat) (now now2 : Int) :
    ((Idempotency ms key rawBody completed next now now2).1.isExecuted
        = false →
      (Idempotency ms key rawBody completed next now now2).2.1 = ms) ∧
    ((Idempotency ms key rawBody completed next now now2).1.isExecuted
        = true →
      (Idempotency ms key rawBody completed next now now2).2.1 =
        (ms.Set key
          ⟨KeyState.StateProcessing, hashBody rawBody, 0, [], now⟩).Set key
          ⟨KeyState.StateComplete, hashBody rawBody, (next rawBody).1,
           (next rawBody).2, now2⟩) ∧
    (∀ k, k ≠ key →
      ((Idempotency ms key rawBody completed next now now2).2.1).Get k =
        ms.Get k) := by
  by_cases hkey : key = ""
  · subst hkey
    refine ⟨fun _ => rfl, fun h => ?_, fun k _ => rfl⟩
    simp [Idempotency, Outcome.isExecuted] at h
  · cases hget : ms.Get key with
    | some existing =>
        obtain ⟨h1, h2, _⟩ := Idempotency_present_readonly ms key rawBody
          completed next now now2 existing hkey hget
        refine ⟨fun _ => h1, fun h => ?_, fun k _ => by rw [h1]⟩
        rw [h2] at h
        cases h
    | none =>
        refine ⟨fun h => ?_, fun _ => ?_, fun k hk => ?_⟩
        · simp [Idempotency, hkey, hget, Outcome.isExecuted] at h
        · simp [Idempotency, hkey, hget]
        · have hget' : mapGet ms.data key = none := hget
          simp [Idempotency, hkey, hget', MemoryStore.Get, MemoryStore.Set,
                mapGet_mapSet_ne _ _ _ _ hk]

/-- Witness for C4: the conflict outcome of a mismatched retry leaves the
store exactly as it was. -/
theorem C4_witness :
    (Idempotency
        ⟨[("k", ⟨KeyState.StateComplete, hashBody [1], 201, [7], 0⟩)], 86400⟩
        "k" [2] none (fun _ => (500, [9])) 5 6).2.1 =
      ⟨[("k", ⟨KeyState.StateComplete, hashBody [1], 201, [7], 0⟩)], 86400⟩ :=
  (C4_store_mutated_only_on_first_sight
    ⟨[("k", ⟨KeyState.StateComplete, hashBody [1], 201, [7], 0⟩)], 86400⟩
    "k" [2] none (fun _ => (500, [9])) 5 6).1 (by decide)

/-- A key absent from the map reads as `none`. -/
theorem mapGet_eq_none_of_not_mem (l : List (String × CachedEntry))
    (k : String) (h : k ∉ l.map Prod.fst) : mapGet l k = none := by
  induction l with
  | nil => rfl
  | cons hd tl ih =>
      obtain ⟨k0, e0⟩ := hd
      simp only [List.map_cons, List.mem_cons] at h
      push_neg at h
      simp [mapGet, Ne.symm h.1, ih h.2]

/-- Sweeping never introduces keys: a key absent before is absent after. -/
theorem sweepAux_not_mem (now ttl : Int) (l : List (String × CachedEntry))
    (k : String) (h : k ∉ l.map Prod.fst) :
    k ∉ (sweepAux now ttl l).1.map Prod.fst := by
  induction l with
  | nil => simp [sweepAux]
  | cons hd tl ih =>
      obtain ⟨k0, e0⟩ := hd
      simp only [List.map_cons, List.mem_cons] at h
      push_neg at h
      by_cases hx : now - e0.CreatedAt > ttl
      · simp only [sweepAux, if_pos hx]
        exact ih h.2
      · simp only [sweepAux, if_neg hx, List.map_cons, List.mem_cons]
        push_neg
        exact ⟨h.1, ih h.2⟩

/-- An entry older than the TTL is gone after the sweep (the map, being a
Go map, holds each key at most once). -/
theorem sweepAux_get_expired (now ttl : Int)
    (l : List (String × CachedEntry)) (k : String) (e : CachedEntry)
    (hnd : (l.map Prod.fst).Nodup) (hget : mapGet l k = some e)
    (hexp : now - e.CreatedAt > ttl) :
    mapGet (sweepAux now ttl l).1 k = none := by
  induction l with
  | nil => cases hget
  | cons hd tl ih =>
      obtain ⟨k0, e0⟩ := hd
      simp only [List.map_cons, List.nodup_cons] at hnd
      by_cases h0 : k0 = k
      · subst h0
        simp only [mapGet, if_pos rfl, if_true, Option.some_inj] at hget
        have hexp0 : now - e0.CreatedAt > ttl := by rw [hget]; exact hexp
        simp only [sweepAux, if_pos hexp0]
        exact mapGet_eq_none_of_not_mem _ _ (sweepAux_not_mem now ttl tl k0 hnd.1)
      · simp only [mapGet, if_neg h0] at hget
        by_cases hx : now - e0.CreatedAt > ttl
        · simp only [sweepAux, if_pos hx]
          exact ih hnd.2 hget
        · simp only [sweepAux, if_neg hx, mapGet, if_neg h0]
          exact ih hnd.2 hget

/-- An entry not older than the TTL survives the sweep unchanged. -/
theorem sweepAux_get_kept (now ttl : Int) (l : List (String × CachedEntry))
    (k : String) (e : CachedEntry) (hget : mapGet l k = some e)
    (hfresh : ¬ now - e.CreatedAt > ttl) :
    mapGet (sweepAux now ttl l).1 k = some e := by
  induction l with
  | nil => cases hget
  | cons hd tl ih =>
      obtain ⟨k0, e0⟩ := hd
      by_cases h0 : k0 = k
      · subst h0
        simp only [mapGet, if_pos rfl, if_true, Option.some_inj] at hget
        subst hget
        simp only [sweepAux, if_neg hfresh, mapGet, if_pos rfl, if_true]
      · simp only [mapGet, if_neg h0] at hget
        by_cases hx : now - e0.CreatedAt > ttl
        · simp only [sweepAux, if_pos hx]
          exact ih hget
        · simp only [sweepAux, if_neg hx, mapGet, if_neg h0]
          exact ih hget

/-- C5: after a sweep at time `now`, an entry whose age strictly exceeds
the TTL is absent, and an entry whose age is strictly below the TTL is
still present with its exact original contents — result and fingerprint
included.  The no-duplicate hypothesis states what the Go `map` type
guarantees for the store's key set. -/
theorem C5_sweep_evicts_old_keeps_young (ms : MemoryStore) (now : Int)
    (k : String) (e : CachedEntry) (hnd : (ms.data.map Prod.fst).Nodup)
    (hget : ms.Get k = some e) :
    (now - e.CreatedAt > ms.ttlSec → (ms.sweep now).Get k = none) ∧
    (now - e.CreatedAt < ms.ttlSec → (ms.sweep now).Get k = some e) := by
  constructor
  · intro hexp
    exact sweepAux_get_expired now ms.ttlSec ms.data k e hnd hget hexp
  · intro hfresh
    exact sweepAux_get_kept now ms.ttlSec ms.data k e hget (by omega)

/-- Witness for C5: with a 24-hour TTL at `now = 90000`, the entry created
at time 0 (age 90000 s > 86400 s) is evicted while the entry created at
time 90000 (age 0) survives byte-for-byte. -/
theorem C5_witness :
    ((⟨[("k3", ⟨KeyState.StateComplete, "h3", 201, [1], 0⟩),
        ("k4", ⟨KeyState.StateComplete, "h4", 200, [2], 90000⟩)],
       86400⟩ : MemoryStore).sweep 90000).Get "k3" = none ∧
    ((⟨[("k3", ⟨KeyState.StateComplete, "h3", 201, [1], 0⟩),
        ("k4", ⟨KeyState.StateComplete, "h4", 200, [2], 90000⟩)],
       86400⟩ : MemoryStore).sweep 90000).Get "k4" =
      some ⟨KeyState.StateComplete, "h4", 200, [2], 90000⟩ :=
  ⟨(C5_sweep_evicts_old_keeps_young
      ⟨[("k3", ⟨KeyState.StateComplete, "h3", 201, [1], 0⟩),
        ("k4", ⟨KeyState.StateComplete, "h4", 200, [2], 90000⟩)], 86400⟩
      90000 "k3" ⟨KeyState.StateComplete, "h3", 201, [1], 0⟩
      (by decide) (by decide)).1 (by decide),
   (C5_sweep_evicts_old_keeps_young
      ⟨[("k3", ⟨KeyState.StateComplete, "h3", 201, [1], 0⟩),
        ("k4", ⟨KeyState.StateComplete, "h4", 200, [2], 90000⟩)], 86400⟩
      90000 "k4" ⟨KeyState.StateComplete, "h4", 200, [2], 90000⟩
      (by decide) (by decide)).2 (by decide)⟩

/-- The `evicted` counter equals the number of entries the sweep removed. -/
theorem sweepAux_count (now ttl : Int) (l : List (String × CachedEntry)) :
    (sweepAux now ttl l).2 + (sweepAux now ttl l).1.length = l.length := by
  induction l with
  | nil => rfl
  | cons hd tl ih =>
      obtain ⟨k0, e0⟩ := hd
      by_cases hx : now - e0.CreatedAt > ttl
      · simp only [sweepAux, if_pos hx, List.length_cons]
        omega
      · simp only [sweepAux, if_neg hx, List.length_cons]
        omega

/-- C7 is false of the code: the Go `sweep` method returns nothing (and
`sweep` is not even part of the `Store` interface in `store/store.go`);
the eviction count lives in a local variable whose only outlet is a log
line emitted when it is positive.  Concretely, a sweep that evicts zero
entries reports the count nowhere at all: on a store whose single entry is
fresh, the count is 0 and the sweep's entire observable output is the
unchanged store and an empty log — no integer is returned to any caller. -/
theorem C7_counterexample :
    (⟨[("k", ⟨KeyState.StateComplete, "h", 200, [1], 0⟩)], 86400⟩ :
        MemoryStore).sweepEvicted 100 = 0 ∧
    (⟨[("k", ⟨KeyState.StateComplete, "h", 200, [1], 0⟩)], 86400⟩ :
        MemoryStore).sweepLog 100 = [] ∧
    (⟨[("k", ⟨KeyState.StateComplete, "h", 200, [1], 0⟩)], 86400⟩ :
        MemoryStore).sweep 100 =
      ⟨[("k", ⟨KeyState.StateComplete, "h", 200, [1], 0⟩)], 86400⟩ := by
  decide

/-- C7 amended: `sweep` counts the entries it evicts — the internal
counter equals the number of entries removed from the map — but returns
nothing; the count is reported only through a log line, emitted exactly
when the count is positive. -/
theorem C7_amended_count_is_logged_not_returned (ms : MemoryStore)
    (now : Int) :
    ms.sweepEvicted now + ((ms.sweep now).data).length = ms.data.length ∧
    (0 < ms.sweepEvicted now →
      ms.sweepLog now =
        ["sweeper evicted " ++ toString (ms.sweepEvicted now) ++
         " expired idempotency keys"]) ∧
    (ms.sweepEvicted now = 0 → ms.sweepLog now = []) := by
  refine ⟨sweepAux_count now ms.ttlSec ms.data, ?_, ?_⟩
  · intro h
    simp [MemoryStore.sweepLog, h]
  · intro h
    simp [MemoryStore.sweepLog, h]

/-- Witness for the amended C7: sweeping a store holding one expired and
one fresh entry removes one entry, and logs exactly that count. -/
theorem C7_witness :
    (⟨[("k3", ⟨KeyState.StateComplete, "h3", 201, [1], 0⟩),
       ("k4", ⟨KeyState.StateComplete, "h4", 200, [2], 90000⟩)],
      86400⟩ : MemoryStore).sweepEvicted 90000 +
      ((⟨[("k3", ⟨KeyState.StateComplete, "h3", 201, [1], 0⟩),
          ("k4", ⟨KeyState.StateComplete, "h4", 200, [2], 90000⟩)],
         86400⟩ : MemoryStore).sweep 90000).data.length = 2 ∧
    (⟨[("k3", ⟨KeyState.StateComplete, "h3", 201, [1], 0⟩),
       ("k4", ⟨KeyState.StateComplete, "h4", 200, [2], 90000⟩)],
      86400⟩ : MemoryStore).sweepLog 90000 =
      ["sweeper evicted 1 expired idempotency keys"] :=
  ⟨(C7_amended_count_is_logged_not_returned
      ⟨[("k3", ⟨KeyState.StateComplete, "h3", 201, [1], 0⟩),
        ("k4", ⟨KeyState.StateComplete, "h4", 200, [2], 90000⟩)], 86400⟩
      90000).1,
   (C7_amended_count_is_logged_not_returned
      ⟨[("k3", ⟨KeyState.StateComplete, "h3", 201, [1], 0⟩),
        ("k4", ⟨KeyState.StateComplete, "h4", 200, [2], 90000⟩)], 86400⟩
      90000).2.1 (by decide)⟩

